import Mathlib

/-
Verification of the DeepBind sequence-scanning and attribution engine
(kangaroo/predict.py) against its natural-language specification.

Each definition below is a shallow embedding of a function (or a code
region) of predict.py; line references point into that file.  Floating
point values are modelled by rationals, numpy boolean masks by lists of
Bool, raised exceptions by Except.error carrying the message string.
-/

namespace DeepBind

/- ----------------------------------------------------------------
   Window slicer, gen_convnet_predictionmaps lines 300-306:

     padseq = "N"*(windowsize-1) + rawseq + "N"*(windowsize-1)
     [padseq[i:i+windowsize]
        for i in range(0, max(1, len(padseq)-windowsize+1), stride)]
   ---------------------------------------------------------------- -/

/-- `"N"*(w-1) + rawseq + "N"*(w-1)` (predict.py line 302). -/
def padseq (w : Nat) (s : List Char) : List Char :=
  List.replicate (w - 1) 'N' ++ s ++ List.replicate (w - 1) 'N'

/-- Number of indices produced by Python `range(0, max(1, plen-w+1), stride)`.
Python `plen - w + 1` can be negative, in which case `max 1` kicks in; the
truncated Nat subtraction `plen + 1 - w` agrees with that after `max 1`. -/
def sliceCount (w stride plen : Nat) : Nat :=
  (max 1 (plen + 1 - w) + stride - 1) / stride

/-- The list of windows `padseq[i:i+w]` at starts `0, stride, 2*stride, ...`
(predict.py line 303). -/
def windows (w stride : Nat) (s : List Char) : List (List Char) :=
  let p := padseq w s
  (List.range' 0 (sliceCount w stride p.length) stride).map
    (fun i => (p.drop i).take w)

/- ----------------------------------------------------------------
   Attribution (gradient) map aggregator,
   gen_convnet_predictionmaps lines 330-342:

     gmap  = np.zeros((len(rawseqs[i])+windowsize-1, 4), ...)
     denom = np.zeros_like(gmap)
     for j in range(0, end_window_idx-start_window_idx):
         dX_j = dX[start+j][1][:min(windowsize, (nwin-j)*stride)]
         gmap [j*stride:j*stride+windowsize] += dX_j
         denom[j*stride:j*stride+windowsize] += np.ones_like(dX_j)
     gmap /= denom
     gmap = np.nan_to_num(gmap)

   All 4 alphabet channels are treated identically (denom adds a full
   ones_like row), so the model tracks a single channel: `dX j r` is
   window j's contribution at its row r for the channel at hand.
   ---------------------------------------------------------------- -/

/-- Length of window j's clipped contribution,
`min(windowsize, (nwin-j)*stride)` (line 338). -/
def clipLen (w s nwin j : Nat) : Nat := min w ((nwin - j) * s)

/-- Window j touches accumulator position p. -/
def covb (w s nwin p j : Nat) : Bool :=
  decide (j * s ≤ p ∧ p < j * s + clipLen w s nwin j)

/-- One iteration of the accumulation loop: add window j's clipped
contribution into the running sums and bump the denominators on the
same span (lines 339-340). -/
def gmapStep (dX : Nat → Nat → ℚ) (w s nwin : Nat)
    (acc : (Nat → ℚ) × (Nat → Nat)) (j : Nat) : (Nat → ℚ) × (Nat → Nat) :=
  (fun p => if covb w s nwin p j then acc.1 p + dX j (p - j * s) else acc.1 p,
   fun p => if covb w s nwin p j then acc.2 p + 1 else acc.2 p)

/-- The accumulator and denominator after folding in all windows. -/
def gmapAccum (dX : Nat → Nat → ℚ) (w s nwin : Nat) :
    (Nat → ℚ) × (Nat → Nat) :=
  (List.range nwin).foldl (gmapStep dX w s nwin) (fun _ => 0, fun _ => 0)

/-- Final cell value: `gmap /= denom; gmap = nan_to_num(gmap)`.  The only
NaN IEEE division can produce here is 0/0 (when the denominator is 0 the
accumulated sum is also 0, see `gmap_denom_zero_sum_zero`), and
`nan_to_num` maps it to 0, which is exactly the `if` below. -/
def gmapValue (dX : Nat → Nat → ℚ) (w s nwin p : Nat) : ℚ :=
  if (gmapAccum dX w s nwin).2 p = 0 then 0
  else (gmapAccum dX w s nwin).1 p / (((gmapAccum dX w s nwin).2 p : ℚ))

/-- The assembled attribution map for a sequence of length L: one value
per position of the `(L + w - 1)`-row accumulator (line 330). -/
def gmapFinal (dX : Nat → Nat → ℚ) (L w s nwin : Nat) : List ℚ :=
  (List.range (L + w - 1)).map (gmapValue dX w s nwin)

/-- Spec-side definition ("Modelled from the spec's words", for the
refinement comparison): the windows whose clipped span covers p. -/
def coveringWindows (w s nwin p : Nat) : List Nat :=
  (List.range nwin).filter (covb w s nwin p)

/-- Spec-side definition: the elementwise mean of all window
contributions touching position p, 0 when no window touches it. -/
def gmapMean (dX : Nat → Nat → ℚ) (w s nwin p : Nat) : ℚ :=
  if (coveringWindows w s nwin p).length = 0 then 0
  else ((coveringWindows w s nwin p).map (fun j => dX j (p - j * s))).sum
        / (((coveringWindows w s nwin p).length : ℚ))

/- ----------------------------------------------------------------
   Strand resolver, maskout_revcomp (predict.py lines 145-164).

   globals.flags["reverse_complement"]: absent = single strand
   (identity, no mask), "force" = forced reverse selection, any other
   value = pick the higher-scoring strand per (fwd, rev) pair.
   ---------------------------------------------------------------- -/

/-- The three states of the reverse_complement flag. -/
inductive RCMode where
  | off
  | force
  | normal
deriving DecidableEq

/-- `Z.reshape((-1,2))`: consecutive (forward, reverse) score pairs. -/
def toPairs : List ℚ → List (ℚ × ℚ)
  | a :: b :: rest => (a, b) :: toPairs rest
  | _ => []

/-- Inverse of `toPairs` on even-length inputs. -/
def flattenPairs (l : List (ℚ × ℚ)) : List ℚ :=
  l.foldr (fun p acc => p.1 :: p.2 :: acc) []

/-- Numpy boolean indexing `Z[mask.ravel()]`. -/
def selectMask (Z : List ℚ) (mask : List Bool) : List ℚ :=
  ((Z.zip mask).filter (fun zm => zm.2)).map (fun zm => zm.1)

/-- Per-pair mask row.  "force": `Zmask[:,0]=False; Zmask[:,1]=True`
(lines 151-152); otherwise `Zmask[:,0] = fwd >= rev;
Zmask[:,1] = fwd < rev` (lines 160-161). -/
def pairMask (mode : RCMode) (p : ℚ × ℚ) : List Bool :=
  match mode with
  | RCMode.force => [false, true]
  | _ => [decide (p.2 ≤ p.1), decide (p.1 < p.2)]

/-- maskout_revcomp: returns the filtered score list and the mask
(`none` when double-strand scoring is disabled). -/
def maskout_revcomp (mode : RCMode) (Z : List ℚ) :
    List ℚ × Option (List Bool) :=
  match mode with
  | RCMode.off => (Z, none)
  | _ =>
    let mask := ((toPairs Z).map (pairMask mode)).flatten
    (selectMask Z mask, some mask)

/- ----------------------------------------------------------------
   Finite-difference attribution delta,
   gen_convnet_predictions lines 236-242:

     dZ = mtZ-Z
     dZ *= np.maximum(0,np.sign(np.maximum(Z,mtZ)))
     ... dX[pad+a+i,j] = dZ[...]
   ---------------------------------------------------------------- -/

/-- `np.sign` on a single value. -/
def npsign (x : ℚ) : ℚ := if 0 < x then 1 else if x < 0 then -1 else 0

/-- The value the finite-difference estimator records for one
(position, symbol) cell, given the original score Z and the mutated
score mtZ of the affected window. -/
def fd_delta (Z mtZ : ℚ) : ℚ := (mtZ - Z) * max 0 (npsign (max Z mtZ))

/- ----------------------------------------------------------------
   PFM prediction maps, gen_pfm_predictionmaps (predict.py 113-143):

     k = len(pfm)
     x = util.acgt2ord(("N"*(k-1)) + s + ("N"*(k-1))).ravel()
     n = len(x)
     pfmN = np.hstack([pfm, 0.25*np.ones((len(pfm),1))])
     x = np.minimum(x, 4)
     pmap = np.array([np.prod(pfmN[idx, x[i:i+k]])
                      for i in range(max(1, n-k+1))])

   Sequences are modelled already ordinal-encoded (A,C,G,T = 0..3,
   the unknown symbol N = 4; `np.minimum(x, 4)` maps any other
   out-of-alphabet ordinal to 4 as well).
   ---------------------------------------------------------------- -/

/-- One strand's prediction map: the product of per-position PFM
entries of every width-k window of the N-padded ordinal sequence.
The PFM has one row per model position; `pfmN` appends the uniform
0.25 column for the unknown symbol. -/
def pfm_scan (pfm : List (List ℚ)) (s : List Nat) : List ℚ :=
  let k := pfm.length
  let x := ((List.replicate (k - 1) 4 ++ s ++ List.replicate (k - 1) 4).map
    (fun v => min v 4))
  let pfmN := pfm.map (fun row => row ++ [1/4])
  let n := x.length
  (List.range (max 1 (n + 1 - k))).map
    (fun i => (((List.range k).map
      (fun t => (pfmN.getD t []).getD (x.getD (i + t) 4) 0)).prod))

/-- `util.revcomp` on ordinal sequences: reverse and complement each
base, leaving the unknown symbol alone. -/
def revcompOrd (s : List Nat) : List Nat :=
  s.reverse.map (fun v => if v < 4 then 3 - v else v)

/-- gen_pfm_predictionmaps for the single sequence attribute: per
sequence, the forward-strand map, plus (when the reverse_complement
flag is set) the elementwise sum with the reversed reverse-strand map
(lines 120-141). -/
def gen_pfm_predictionmaps (rc : Bool) (pfm : List (List ℚ))
    (seqs : List (List Nat)) : List (List ℚ) :=
  seqs.map (fun s =>
    if rc then
      List.zipWith (fun a b => a + b) (pfm_scan pfm s)
        ((pfm_scan pfm (revcompOrd s)).reverse)
    else pfm_scan pfm s)

/- ----------------------------------------------------------------
   Scoped mutation of the shared feature buffer in finite-difference
   mode, gen_convnet_predictions lines 220-244:

     oldF = args['F']
     for ... :                      # (flattened to one mutation list)
         args['F'] = sm.asarray(mtF)
         mtoutputs = model.eval(**args)     # may raise
         ...
     args['F'] = oldF

   The state is the dict slot args['F']; model.eval is an opaque,
   possibly-failing collaborator.  There is no try/finally around the
   loop, so the restoring assignment runs only on normal completion.
   ---------------------------------------------------------------- -/

/-- The mutation loop: bind args['F'] to the next mutated buffer, then
evaluate; on an evaluation failure the exception propagates with the
slot still holding the mutated buffer. -/
def fd_loop (evalF : List ℚ → Except String Unit) :
    List (List ℚ) → List ℚ → Except String Unit × List ℚ
  | [], F => (Except.ok (), F)
  | mtF :: rest, _ =>
    match evalF mtF with
    | Except.error e => (Except.error e, mtF)
    | Except.ok _ => fd_loop evalF rest mtF

/-- The whole finite-difference block: save oldF, run the loop, and on
normal completion restore args['F'] = oldF (line 244). -/
def fd_block (evalF : List ℚ → Except String Unit)
    (muts : List (List ℚ)) (F0 : List ℚ) : Except String Unit × List ℚ :=
  let oldF := F0
  match fd_loop evalF muts F0 with
  | (Except.ok _, _) => (Except.ok (), oldF)
  | (Except.error e, F) => (Except.error e, F)

/-- A model evaluation that always fails (e.g. the backend raising
out-of-memory), used as the exceptional-path counterexample. -/
def evalBad : List ℚ → Except String Unit := fun _ => Except.error "eval failed"

/-- A model evaluation that always succeeds. -/
def evalGood : List ℚ → Except String Unit := fun _ => Except.ok ()

/- ----------------------------------------------------------------
   Worker and orchestrator, predict_worker.__call__ (lines 394-456),
   _check_worker_result (459-463) and predict (466-508).
   ---------------------------------------------------------------- -/

/-- A numpy cell that is either NaN or a number. -/
inductive NpVal where
  | nan : NpVal
  | num : ℚ → NpVal
deriving DecidableEq

/-- One gradient-map result entry: the decoded window/sequence together
with its per-position per-symbol attribution array. -/
structure GMapEntry where
  seq : List Nat
  gmap : List (List ℚ)
deriving DecidableEq

/-- The value stored under one result key. -/
inductive ResultVal where
  | direct : List NpVal → ResultVal
  | scalars : List ℚ → ResultVal
  | pmapsV : List (List ℚ) → ResultVal
  | gmapsV : List GMapEntry → ResultVal
deriving DecidableEq

/-- The dataset as the worker sees it: how many sequence attributes it
declares, and the ordinal-encoded sequences of the (single) attribute. -/
structure DataSet where
  nseqattrs : Nat
  seqs : List (List Nat)
deriving DecidableEq

/-- An evaluable (convnet) model: an opaque scoring capability and an
opaque input-gradient capability, both per input sequence/window. -/
structure ConvNet where
  score : List Nat → ℚ
  grad : List Nat → List (List ℚ)

/-- A loaded model is either a PFM matrix (is_pfm, line 350-351) or an
evaluable network. -/
inductive Model where
  | pfm : List (List ℚ) → Model
  | net : ConvNet → Model

/-- The worker job parameter tuple (line 398). -/
structure WorkerParams where
  modelid : String
  model : Model
  scan : Option Nat
  stride : Nat
  data : DataSet
  want_pmaps : Bool
  want_gmaps : Bool

/-- `np.max` over a (always nonempty here) prediction map. -/
def npMax (l : List ℚ) : ℚ := l.foldl max (l.headD 0)

/-- `np.mean`. -/
def npMean (l : List ℚ) : ℚ := l.sum / ((l.length : ℚ))

/-- `np.sum`. -/
def npSum (l : List ℚ) : ℚ := l.sum

/-- The windows of an ordinal-encoded sequence, as the slicer produces
them (same code as `windows`, over ordinals with 4 the pad symbol). -/
def ordWindows (w stride : Nat) (s : List Nat) : List (List Nat) :=
  let p := List.replicate (w - 1) 4 ++ s ++ List.replicate (w - 1) 4
  (List.range' 0 (sliceCount w stride p.length) stride).map
    (fun i => (p.drop i).take w)

/-- The per-sequence assembled gradient map in scan mode: the C2
aggregator applied per alphabet channel to the per-window gradients. -/
def assembleSeqGmap (net : ConvNet) (w s : Nat) (s0 : List Nat) : GMapEntry :=
  let wins := ordWindows w s s0
  let nwin := wins.length
  GMapEntry.mk s0
    ((List.range (s0.length + w - 1)).map (fun p =>
      (List.range 4).map (fun c =>
        gmapValue (fun j r => ((net.grad (wins.getD j [])).getD r []).getD c 0)
          w s nwin p)))

/-- Error messages raised inside the worker job (predict.py lines 115,
278, 428). -/
def pfmMultiSeqError : String := "Cannot apply PFMs to multi-sequence data."

def scanMultiSeqError : String := "Cannot currently use --scan on multi-sequence data."

def directPmapsError : String :=
  "In direct evaluation mode, it does not make sense to ask for a predictionmap (pmap)"

/-- The result mapping built in scan / PFM mode (lines 432-442): keys
"<id>.direct", "<id>.max", "<id>.avg", "<id>.sum", plus "<id>.pmaps"
and "<id>.gmaps" on request. -/
def scanResults (modelid : String) (dir : List NpVal)
    (pmaps : List (List ℚ)) (gmaps : Option (List GMapEntry))
    (want_pmaps : Bool) : List (String × ResultVal) :=
  [(modelid ++ ".direct", ResultVal.direct dir),
   (modelid ++ ".max", ResultVal.scalars (pmaps.map npMax)),
   (modelid ++ ".avg", ResultVal.scalars (pmaps.map npMean)),
   (modelid ++ ".sum", ResultVal.scalars (pmaps.map npSum))]
  ++ (if want_pmaps then [(modelid ++ ".pmaps", ResultVal.pmapsV pmaps)] else [])
  ++ (match gmaps with
      | some g => [(modelid ++ ".gmaps", ResultVal.gmapsV g)]
      | none => [])

/-- The body of predict_worker.__call__'s try block (lines 398-449):
dispatch on PFM vs network and scan vs direct mode.  For a PFM model
the direct predictions are `np.repeat([[np.nan]], len(data))` (line
418) and gen_pfm_predictionmaps returns `gmaps = []` untouched even
when gradient maps were requested (lines 117-143): the
NotImplementedError for that case is commented out (lines 416-417). -/
def worker_job (rc : Bool) (p : WorkerParams) :
    Except String (List (String × ResultVal)) :=
  match p.model with
  | Model.pfm m =>
    if 1 < p.data.nseqattrs then Except.error pfmMultiSeqError
    else
      Except.ok (scanResults p.modelid
        (List.replicate p.data.seqs.length NpVal.nan)
        (gen_pfm_predictionmaps rc m p.data.seqs)
        (if p.want_gmaps then some [] else none)
        p.want_pmaps)
  | Model.net net =>
    match p.scan with
    | some w =>
      if 1 < p.data.nseqattrs then Except.error scanMultiSeqError
      else
        Except.ok (scanResults p.modelid
          (p.data.seqs.map (fun s0 => NpVal.num (net.score s0)))
          (p.data.seqs.map (fun s0 => (ordWindows w p.stride s0).map net.score))
          (if p.want_gmaps
            then some (p.data.seqs.map (assembleSeqGmap net w p.stride))
            else none)
          p.want_pmaps)
    | none =>
      if p.want_pmaps then Except.error directPmapsError
      else
        Except.ok ([(p.modelid,
            ResultVal.direct (p.data.seqs.map (fun s0 => NpVal.num (net.score s0))))]
          ++ (if p.want_gmaps then
                [(p.modelid ++ ".gmaps", ResultVal.gmapsV (p.data.seqs.map
                  (fun s0 => GMapEntry.mk s0 ((net.grad s0).map (fun row =>
                    row.map (fun v => v * max 0 (net.score s0)))))))]
              else []))

/-- What a worker hands back across the process boundary: the result
mapping, or the captured (exception, traceback string) pair. -/
inductive WorkerResult where
  | success : List (String × ResultVal) → WorkerResult
  | failure : String → String → WorkerResult
deriving DecidableEq

/-- `traceback.format_exc()`, abstracted: some diagnostic string derived
from the error. -/
def tracebackOf (e : String) : String :=
  "Traceback (most recent call last):\n" ++ e

/-- predict_worker.__call__ (lines 394-456): run the job body; catch any
exception and return it as data with its traceback, unless
multiprocessing is disabled, in which case re-raise. -/
def predict_worker_call (allow_mp : Bool) (rc : Bool) (p : WorkerParams) :
    Except String WorkerResult :=
  match worker_job rc p with
  | Except.ok preds => Except.ok (WorkerResult.success preds)
  | Except.error e =>
    if allow_mp then Except.ok (WorkerResult.failure e (tracebackOf e))
    else Except.error e

/-- _check_worker_result (lines 459-463): a failure record makes the
orchestrator quit with the worker's message and traceback. -/
def check_worker_result (r : WorkerResult) :
    Except String (List (String × ResultVal)) :=
  match r with
  | WorkerResult.success m => Except.ok m
  | WorkerResult.failure e tb =>
    Except.error ("Error in Worker...\n" ++ e ++ "\n" ++ tb)

/-- `predictions.update(...)` on the dict modelled as an association
list: entries overwritten by the incoming mapping are dropped, the
incoming entries appended. -/
def dictUpdate (acc m : List (String × ResultVal)) :
    List (String × ResultVal) :=
  acc.filter (fun kv => (m.lookup kv.1).isNone) ++ m

/-- The orchestrator's collection loop (lines 490-492 / 503-505):
check each worker result in order and merge it in; stop at the first
failure record. -/
def predict_loop (rs : List WorkerResult) (acc : List (String × ResultVal)) :
    Except String (List (String × ResultVal)) :=
  match rs with
  | [] => Except.ok acc
  | r :: rest =>
    match check_worker_result r with
    | Except.error e => Except.error e
    | Except.ok m => predict_loop rest (dictUpdate acc m)

/-- How the pool is shut down: close+join on success (lines 498-499),
terminate+join when the run aborts (lines 494-495). -/
inductive PoolShutdown where
  | closed
  | terminated
deriving DecidableEq

/-- The orchestrator's handling of the gathered worker results: either
the merged predictions with a clean pool shutdown, or the aggregate
error with the pool terminated. -/
def predict_run (rs : List WorkerResult) :
    Except String (List (String × ResultVal)) × PoolShutdown :=
  match predict_loop rs [] with
  | Except.error e => (Except.error e, PoolShutdown.terminated)
  | Except.ok preds => (Except.ok preds, PoolShutdown.closed)

/-- Is this worker result a captured failure record? -/
def WorkerResult.isFailure : WorkerResult → Bool
  | WorkerResult.failure _ _ => true
  | _ => false

/-- The successful mapping of one worker result ([] for a failure). -/
def successMap : WorkerResult → List (String × ResultVal)
  | WorkerResult.success m => m
  | WorkerResult.failure _ _ => []

/-- The merged mapping over all (successful) worker results. -/
def mergeAll (rs : List WorkerResult) : List (String × ResultVal) :=
  rs.foldl (fun acc r => dictUpdate acc (successMap r)) []

/-- Sample job: a PFM model handed a dataset that declares two sequence
attributes — the job raises the multi-sequence ValueError. -/
def pBad : WorkerParams :=
  WorkerParams.mk "M" (Model.pfm [[1, 0, 0, 0]]) none 1 (DataSet.mk 2 [[0]])
    false false

/-- Sample job: a PFM model with gradient maps requested on a
single-sequence-attribute dataset. -/
def pGmSample : WorkerParams :=
  WorkerParams.mk "M" (Model.pfm [[1, 0, 0, 0]]) (some 24) 1
    (DataSet.mk 1 [[0]]) false true

/-- Sample job for the NaN-direct-predictions claim. -/
def pDirectSample : WorkerParams :=
  WorkerParams.mk "M" (Model.pfm [[1, 0, 0, 0]]) (some 24) 1
    (DataSet.mk 1 [[0]]) false false

/-- Sample worker result lists for the orchestrator claims. -/
def rsFailSample : List WorkerResult :=
  [WorkerResult.success [("A", ResultVal.scalars [1])],
   WorkerResult.failure "boom" "tb"]

def rsOkSample : List WorkerResult :=
  [WorkerResult.success [("A", ResultVal.scalars [1])],
   WorkerResult.success [("B", ResultVal.scalars [2])]]

end DeepBind

namespace DeepBind

theorem padseq_length (w : Nat) (s : List Char) :
    (padseq w s).length = (w - 1) + s.length + (w - 1) := by
  simp [padseq]
  omega

theorem windows_length (w st : Nat) (s : List Char) :
    (windows w st s).length = sliceCount w st (padseq w s).length := by
  simp [windows]

/-- Claim C1 (amended): the slicer pads with `w-1` unknown symbols per side
(scenario: "ACGT", w = 2 pads to "NACGTN" and yields the 5 windows "NA",
"AC", "CG", "GT", "TN"); it always emits at least one window; and with
stride 1 the number of windows is `max 1 (len(S) + w - 1)` — which equals
`len(S) + w - 1` except in the degenerate corner `len(S) = 0, w = 1`. -/
theorem window_slicer_spec (s : List Char) (w st : Nat) (hw : 1 ≤ w)
    (hst : 1 ≤ st) :
    1 ≤ (windows w st s).length ∧
    (windows w 1 s).length = max 1 (s.length + w - 1) ∧
    padseq 2 "ACGT".toList = "NACGTN".toList ∧
    windows 2 1 "ACGT".toList =
      ["NA".toList, "AC".toList, "CG".toList, "GT".toList, "TN".toList] := by
  refine ⟨?_, ?_, by decide, by decide⟩
  · rw [windows_length]
    unfold sliceCount
    rw [Nat.le_div_iff_mul_le (by omega)]
    omega
  · rw [windows_length, padseq_length]
    unfold sliceCount
    omega

/-- Witness for `window_slicer_spec` at the concrete scenario input. -/
theorem window_slicer_spec_witness :
    1 ≤ (windows 2 1 "ACGT".toList).length ∧
    (windows 2 1 "ACGT".toList).length = max 1 ("ACGT".toList.length + 2 - 1) ∧
    padseq 2 "ACGT".toList = "NACGTN".toList ∧
    windows 2 1 "ACGT".toList =
      ["NA".toList, "AC".toList, "CG".toList, "GT".toList, "TN".toList] :=
  window_slicer_spec "ACGT".toList 2 1 (by decide) (by decide)

/-- Counterexample to claim C1 as stated: for the empty sequence and
window size 1 (stride 1) the code emits 1 window, but the claimed count
`len(S) + w - 1` is 0. -/
theorem window_slicer_count_cex :
    (windows 1 1 ([] : List Char)).length = 1 ∧
    ((windows 1 1 ([] : List Char)).length : Int) ≠
      (([] : List Char).length : Int) + 1 - 1 := by
  constructor
  · decide
  · decide

/-- Unrolling the accumulation loop: the accumulated sum at p is the
initial value plus the contributions of the windows in l covering p. -/
theorem gmapFold_fst (dX : Nat → Nat → ℚ) (w s nwin p : Nat) :
    ∀ (l : List Nat) (g0 : Nat → ℚ) (d0 : Nat → Nat),
      ((l.foldl (gmapStep dX w s nwin) (g0, d0)).1) p
        = g0 p + ((l.filter (covb w s nwin p)).map
            (fun j => dX j (p - j * s))).sum
  | [], g0, d0 => by simp
  | j :: l, g0, d0 => by
    by_cases hc : covb w s nwin p j
    · rw [List.foldl_cons,
        gmapFold_fst dX w s nwin p l
          ((gmapStep dX w s nwin (g0, d0) j).1)
          ((gmapStep dX w s nwin (g0, d0) j).2)]
      simp [gmapStep, hc, List.filter_cons]
      ring
    · rw [List.foldl_cons,
        gmapFold_fst dX w s nwin p l
          ((gmapStep dX w s nwin (g0, d0) j).1)
          ((gmapStep dX w s nwin (g0, d0) j).2)]
      simp [gmapStep, hc, List.filter_cons]

/-- Unrolling the accumulation loop: the denominator at p counts the
windows in l that cover p. -/
theorem gmapFold_snd (dX : Nat → Nat → ℚ) (w s nwin p : Nat) :
    ∀ (l : List Nat) (g0 : Nat → ℚ) (d0 : Nat → Nat),
      ((l.foldl (gmapStep dX w s nwin) (g0, d0)).2) p
        = d0 p + (l.filter (covb w s nwin p)).length
  | [], g0, d0 => by simp
  | j :: l, g0, d0 => by
    by_cases hc : covb w s nwin p j
    · rw [List.foldl_cons,
        gmapFold_snd dX w s nwin p l
          ((gmapStep dX w s nwin (g0, d0) j).1)
          ((gmapStep dX w s nwin (g0, d0) j).2)]
      simp [gmapStep, hc, List.filter_cons]
      omega
    · rw [List.foldl_cons,
        gmapFold_snd dX w s nwin p l
          ((gmapStep dX w s nwin (g0, d0) j).1)
          ((gmapStep dX w s nwin (g0, d0) j).2)]
      simp [gmapStep, hc, List.filter_cons]

theorem gmap_sum_eq (dX : Nat → Nat → ℚ) (w s nwin p : Nat) :
    (gmapAccum dX w s nwin).1 p
      = ((coveringWindows w s nwin p).map (fun j => dX j (p - j * s))).sum := by
  unfold gmapAccum coveringWindows
  rw [gmapFold_fst]
  simp

theorem gmap_denom_eq (dX : Nat → Nat → ℚ) (w s nwin p : Nat) :
    (gmapAccum dX w s nwin).2 p = (coveringWindows w s nwin p).length := by
  unfold gmapAccum coveringWindows
  rw [gmapFold_snd]
  simp

/-- When no window covers p the accumulated sum is 0, so the only NaN
`gmap /= denom` can produce is 0/0 and `nan_to_num` turns it into 0. -/
theorem gmap_denom_zero_sum_zero (dX : Nat → Nat → ℚ) (w s nwin p : Nat)
    (h : (gmapAccum dX w s nwin).2 p = 0) :
    (gmapAccum dX w s nwin).1 p = 0 := by
  rw [gmap_sum_eq]
  rw [gmap_denom_eq dX w s nwin p] at h
  rw [List.length_eq_zero] at h
  rw [h]
  simp

theorem getD_map_range (f : Nat → ℚ) (n p : Nat) (hp : p < n) :
    ((List.range n).map f).getD p 0 = f p := by
  rw [List.getD_eq_getElem?_getD, List.getElem?_map, List.getElem?_range hp]
  rfl

/-- Claim C2: the assembled attribution map is the elementwise mean of
the clipped window contributions touching each position (accumulated sum
divided by contribution count), over an accumulator of length L + w - 1
with window j folded in at offset j*s and clipped to
`min(w, (nwin-j)*stride)` rows; a position covered by no window gets the
value 0, never an undefined/NaN value. -/
theorem gmap_assembly_mean (dX : Nat → Nat → ℚ) (L w s nwin p : Nat)
    (hp : p < L + w - 1) :
    (gmapFinal dX L w s nwin).getD p 0 = gmapMean dX w s nwin p ∧
    ((coveringWindows w s nwin p).length = 0 →
      (gmapFinal dX L w s nwin).getD p 0 = 0) := by
  have hv : (gmapFinal dX L w s nwin).getD p 0 = gmapValue dX w s nwin p :=
    getD_map_range _ _ _ hp
  have hmean : gmapValue dX w s nwin p = gmapMean dX w s nwin p := by
    unfold gmapValue gmapMean
    rw [gmap_sum_eq, gmap_denom_eq]
  refine ⟨hv.trans hmean, fun h0 => ?_⟩
  rw [hv, hmean]
  unfold gmapMean
  rw [if_pos h0]

/-- Witness for `gmap_assembly_mean`: a 1-base sequence, window size 1,
stride 1, one window contributing the value 1 at position 0. -/
theorem gmap_assembly_mean_witness :
    (gmapFinal (fun _ _ => (1 : ℚ)) 1 1 1 1).getD 0 0
        = gmapMean (fun _ _ => (1 : ℚ)) 1 1 1 0 ∧
    ((coveringWindows 1 1 1 0).length = 0 →
      (gmapFinal (fun _ _ => (1 : ℚ)) 1 1 1 1).getD 0 0 = 0) :=
  gmap_assembly_mean (fun _ _ => (1 : ℚ)) 1 1 1 1 0 (by decide)

theorem toPairs_flatten :
    ∀ (Z : List ℚ), Z.length % 2 = 0 → flattenPairs (toPairs Z) = Z
  | [], _ => rfl
  | [a], h => by simp at h
  | a :: b :: rest, h => by
    have hr : rest.length % 2 = 0 := by
      simp [List.length_cons] at h
      omega
    have ih := toPairs_flatten rest hr
    simp only [toPairs, flattenPairs, List.foldr_cons]
    simp only [flattenPairs] at ih
    rw [ih]

theorem selectMask_force :
    ∀ ps : List (ℚ × ℚ),
      selectMask (flattenPairs ps) ((ps.map (pairMask RCMode.force)).flatten)
        = ps.map Prod.snd
  | [] => rfl
  | p :: ps => by
    have ih := selectMask_force ps
    simp only [flattenPairs, List.foldr_cons, List.map_cons, List.flatten,
      pairMask]
    simp only [selectMask, List.zip_cons_cons, List.filter_cons] at ih ⊢
    simp only [flattenPairs] at ih
    simpa using ih

theorem selectMask_normal :
    ∀ ps : List (ℚ × ℚ),
      selectMask (flattenPairs ps) ((ps.map (pairMask RCMode.normal)).flatten)
        = ps.map (fun p => if p.2 ≤ p.1 then p.1 else p.2)
  | [] => rfl
  | p :: ps => by
    have ih := selectMask_normal ps
    simp only [flattenPairs, List.foldr_cons, List.map_cons, List.flatten,
      pairMask]
    simp only [selectMask, List.zip_cons_cons, List.filter_cons] at ih ⊢
    simp only [flattenPairs] at ih
    by_cases hle : p.2 ≤ p.1
    · have hnlt : ¬ p.1 < p.2 := not_lt.mpr hle
      simp [hle, hnlt, ih]
    · have hlt : p.1 < p.2 := not_le.mp hle
      simp [hle, hlt, ih]

/-- Claim C3: with double-strand scoring disabled the resolver is the
identity and returns no mask; in forced-reverse mode the mask is
`[False, True]` for every pair (and the reverse score of each pair is
selected); in normal mode the mask marks the forward strand selected
iff `forward >= reverse` and the selected score per pair is the forward
one on ties, the higher one otherwise. -/
theorem maskout_revcomp_spec (Z : List ℚ) (h : Z.length % 2 = 0) :
    maskout_revcomp RCMode.off Z = (Z, none) ∧
    maskout_revcomp RCMode.force Z
      = ((toPairs Z).map Prod.snd,
         some (((toPairs Z).map (fun _ => [false, true])).flatten)) ∧
    maskout_revcomp RCMode.normal Z
      = ((toPairs Z).map (fun p => if p.2 ≤ p.1 then p.1 else p.2),
         some (((toPairs Z).map
           (fun p => [decide (p.2 ≤ p.1), decide (p.1 < p.2)])).flatten)) := by
  have hz := toPairs_flatten Z h
  refine ⟨rfl, ?_, ?_⟩
  · have hforce := selectMask_force (toPairs Z)
    rw [hz] at hforce
    show (selectMask Z (((toPairs Z).map (pairMask RCMode.force)).flatten),
        some (((toPairs Z).map (pairMask RCMode.force)).flatten)) = _
    rw [hforce]
    rfl
  · have hnorm := selectMask_normal (toPairs Z)
    rw [hz] at hnorm
    show (selectMask Z (((toPairs Z).map (pairMask RCMode.normal)).flatten),
        some (((toPairs Z).map (pairMask RCMode.normal)).flatten)) = _
    rw [hnorm]
    rfl

/-- Witness for `maskout_revcomp_spec` on the concrete scores
[1, 2, 3, 3]: pair (1,2) picks the reverse score, the tied pair (3,3)
picks the forward score. -/
theorem maskout_revcomp_spec_witness :
    (maskout_revcomp RCMode.normal [(1 : ℚ), 2, 3, 3]).1 = [2, 3] ∧
    maskout_revcomp RCMode.off [(1 : ℚ), 2, 3, 3]
      = ([(1 : ℚ), 2, 3, 3], none) := by
  have h := maskout_revcomp_spec [(1 : ℚ), 2, 3, 3] (by decide)
  refine ⟨?_, h.1⟩
  rw [h.2.2]
  norm_num [toPairs]

/-- Counterexample to claim C4 as stated: with original score Z = 1 and
mutated score mtZ = 0 the recorded value is -1, which is negative, so
the delta is not clipped to non-negative. -/
theorem fd_delta_negative_cex : fd_delta 1 0 = -1 ∧ fd_delta 1 0 < 0 := by
  norm_num [fd_delta, npsign]

/-- Claim C4 (amended): the recorded finite-difference value is the raw
delta `mtZ - Z` whenever either score is positive, and 0 when both
scores are non-positive; only the sign factor is clipped, so the
recorded value can be negative (mutating away a helpful base of a
positive-scoring window records a negative delta). -/
theorem fd_delta_spec (Z mtZ : ℚ) :
    fd_delta Z mtZ = if 0 < max Z mtZ then mtZ - Z else 0 := by
  unfold fd_delta npsign
  by_cases h : 0 < max Z mtZ
  · simp [h]
  · have h2 : ¬ (0 : ℚ) < 1 → False := by norm_num
    by_cases hneg : max Z mtZ < 0
    · simp [h, hneg]
    · simp [h, hneg]

theorem pfm_scan_length (pfm : List (List ℚ)) (s : List Nat)
    (hk : 1 ≤ pfm.length) :
    (pfm_scan pfm s).length = max 1 (s.length + pfm.length - 1) := by
  simp [pfm_scan]
  omega

/-- Claim C5 (amended): for every PFM of width k >= 1, the prediction
map of a sequence of length L has length `max 1 (L + k - 1)` on either
strand setting (the sequence is N-padded with k-1 symbols per side
before scanning); for L = k this is 2k - 1, which equals 1 only for
width-1 models, not in general. -/
theorem gen_pfm_pmap_length (pfm : List (List ℚ)) (seqs : List (List Nat))
    (rc : Bool) (hk : 1 ≤ pfm.length) :
    (gen_pfm_predictionmaps rc pfm seqs).map List.length
      = seqs.map (fun s => max 1 (s.length + pfm.length - 1)) := by
  unfold gen_pfm_predictionmaps
  rw [List.map_map]
  refine List.map_congr_left (fun s _ => ?_)
  by_cases hrc : rc
  · have h1 := pfm_scan_length pfm s hk
    have h2 := pfm_scan_length pfm (revcompOrd s) hk
    have hrev : (revcompOrd s).length = s.length := by simp [revcompOrd]
    simp [hrc, List.length_zipWith, h1, h2, hrev]
  · simp [hrc, pfm_scan_length pfm s hk]

/-- Witness for `gen_pfm_pmap_length`: a width-1 PFM on a length-1
sequence gives a length-1 map (the only case where the claimed length 1
actually occurs). -/
theorem gen_pfm_pmap_length_witness :
    (gen_pfm_predictionmaps true [[(1 : ℚ), 0, 0, 0]] [[0]]).map List.length
      = [[(0 : Nat)]].map (fun s => max 1 (s.length + [[(1 : ℚ), 0, 0, 0]].length - 1)) :=
  gen_pfm_pmap_length [[(1 : ℚ), 0, 0, 0]] [[0]] true (by decide)

/-- Counterexample to claim C5 as stated: a width-2 PFM scanned over a
sequence of length exactly 2 produces a prediction map of length 3
(because of the k-1 = 1 symbol padding on each side), not length 1. -/
theorem pfm_pmap_length_cex :
    (gen_pfm_predictionmaps false [[(1 : ℚ), 0, 0, 0], [1, 0, 0, 0]]
        [[0, 0]]).map List.length = [3] ∧
    ¬ ((gen_pfm_predictionmaps false [[(1 : ℚ), 0, 0, 0], [1, 0, 0, 0]]
        [[0, 0]]).map List.length = [1]) := by
  constructor
  · decide
  · decide

/-- Counterexample to claim C9 as stated: when the model evaluation
raises inside the mutation loop, the exception propagates with the
shared feature slot still bound to the mutated buffer [1], not restored
to the original [0] — restoration is not guaranteed on exceptional exit
paths (there is no try/finally around lines 220-244). -/
theorem fd_block_no_restore_on_error_cex :
    fd_block evalBad [[1]] [0] = (Except.error "eval failed", [1]) ∧
    ([(1 : ℚ)] : List ℚ) ≠ [0] := by
  constructor
  · rfl
  · decide

/-- Claim C9 (amended): the finite-difference block restores the shared
feature buffer to its original value on the normal exit path (the
`args['F'] = oldF` assignment after the loop); on an exceptional exit
the slot keeps the last mutated buffer, and the exception aborts the
whole job. -/
theorem fd_block_restores_on_success (evalF : List ℚ → Except String Unit)
    (muts : List (List ℚ)) (F0 : List ℚ)
    (h : (fd_block evalF muts F0).1 = Except.ok ()) :
    (fd_block evalF muts F0).2 = F0 := by
  unfold fd_block at h ⊢
  rcases hl : fd_loop evalF muts F0 with ⟨res, F⟩
  cases res with
  | ok u => rfl
  | error e =>
    rw [hl] at h
    simp at h

/-- Witness for `fd_block_restores_on_success`: two successful mutated
evaluations, buffer restored to [0]. -/
theorem fd_block_restores_on_success_witness :
    (fd_block evalGood [[1], [2]] [0]).2 = [0] :=
  fd_block_restores_on_success evalGood [[1], [2]] [0] rfl

/-- Claim C7: predict_worker.__call__ passes successful job results
through, and catches any exception raised during the job, returning it
paired with its traceback as a failure record — unless multiprocessing
is disabled, in which case the exception propagates to the caller. -/
theorem worker_failure_boundary (allow_mp rc : Bool) (p : WorkerParams) :
    (∀ preds, worker_job rc p = Except.ok preds →
      predict_worker_call allow_mp rc p
        = Except.ok (WorkerResult.success preds)) ∧
    (∀ e, worker_job rc p = Except.error e →
      predict_worker_call allow_mp rc p
        = (if allow_mp then
             Except.ok (WorkerResult.failure e (tracebackOf e))
           else Except.error e)) := by
  constructor
  · intro preds hp
    simp [predict_worker_call, hp]
  · intro e he
    simp [predict_worker_call, he]

/-- Witness for `worker_failure_boundary`: the multi-sequence PFM job
raises; with multiprocessing the error comes back as a failure record,
without it the error propagates. -/
theorem worker_failure_boundary_witness :
    predict_worker_call true false pBad
      = Except.ok (WorkerResult.failure pfmMultiSeqError
          (tracebackOf pfmMultiSeqError)) ∧
    predict_worker_call false false pBad = Except.error pfmMultiSeqError := by
  have h1 := (worker_failure_boundary true false pBad).2 pfmMultiSeqError rfl
  have h2 := (worker_failure_boundary false false pBad).2 pfmMultiSeqError rfl
  exact ⟨by simpa using h1, by simpa using h2⟩

theorem predict_loop_ok (rs : List WorkerResult) :
    ∀ acc, (∀ r ∈ rs, r.isFailure = false) →
      predict_loop rs acc
        = Except.ok (rs.foldl (fun a r => dictUpdate a (successMap r)) acc) := by
  induction rs with
  | nil => intro acc _; rfl
  | cons r rest ih =>
    intro acc h
    have hr := h r (List.mem_cons_self r rest)
    cases r with
    | failure e tb => simp [WorkerResult.isFailure] at hr
    | success m =>
      have hrest : ∀ x ∈ rest, x.isFailure = false :=
        fun x hx => h x (List.mem_cons_of_mem _ hx)
      simp [predict_loop, check_worker_result, successMap,
        ih (dictUpdate acc m) hrest]

theorem predict_loop_err (rs : List WorkerResult) :
    ∀ acc, (∃ e tb, WorkerResult.failure e tb ∈ rs) →
      ∃ e tb, WorkerResult.failure e tb ∈ rs ∧
        predict_loop rs acc
          = Except.error ("Error in Worker...\n" ++ e ++ "\n" ++ tb) := by
  induction rs with
  | nil =>
    intro acc h
    obtain ⟨e, tb, hmem⟩ := h
    exact absurd hmem (List.not_mem_nil _)
  | cons r rest ih =>
    intro acc h
    cases r with
    | failure e tb =>
      exact ⟨e, tb, List.mem_cons_self _ _, rfl⟩
    | success m =>
      obtain ⟨e, tb, hmem⟩ := h
      have hrest : WorkerResult.failure e tb ∈ rest := by
        rcases List.mem_cons.mp hmem with heq | htl
        · exact absurd heq (by simp)
        · exact htl
      obtain ⟨e2, tb2, hmem2, heq2⟩ :=
        ih (dictUpdate acc m) ⟨e, tb, hrest⟩
      exact ⟨e2, tb2, List.mem_cons_of_mem _ hmem2,
        by simpa [predict_loop, check_worker_result] using heq2⟩

/-- Claim C8: if any gathered worker result is a failure record, the
whole run produces a single aggregate error carrying that worker's
message and traceback, the pool is terminated, and none of the other
jobs' successful results are returned; otherwise predict returns the
merged mapping of all per-model results and closes the pool cleanly. -/
theorem predict_aborts_on_failure (rs : List WorkerResult) :
    ((∃ e tb, WorkerResult.failure e tb ∈ rs) →
      ∃ e tb, WorkerResult.failure e tb ∈ rs ∧
        predict_run rs
          = (Except.error ("Error in Worker...\n" ++ e ++ "\n" ++ tb),
             PoolShutdown.terminated)) ∧
    ((∀ r ∈ rs, r.isFailure = false) →
      predict_run rs = (Except.ok (mergeAll rs), PoolShutdown.closed)) := by
  constructor
  · intro h
    obtain ⟨e, tb, hmem, heq⟩ := predict_loop_err rs [] h
    exact ⟨e, tb, hmem, by simp [predict_run, heq]⟩
  · intro h
    simp [predict_run, predict_loop_ok rs [] h, mergeAll]

/-- Witness for `predict_aborts_on_failure`: a failing result among two
aborts the run with the pool terminated; two successful results merge
with the pool closed. -/
theorem predict_aborts_on_failure_witness :
    (∃ e tb, WorkerResult.failure e tb ∈ rsFailSample ∧
      predict_run rsFailSample
        = (Except.error ("Error in Worker...\n" ++ e ++ "\n" ++ tb),
           PoolShutdown.terminated)) ∧
    predict_run rsOkSample
      = (Except.ok (mergeAll rsOkSample), PoolShutdown.closed) :=
  ⟨(predict_aborts_on_failure rsFailSample).1 ⟨"boom", "tb", by decide⟩,
   (predict_aborts_on_failure rsOkSample).2 (by decide)⟩

/-- Claim C10: on a PFM model (with the usual single sequence
attribute), the "<model_id>.direct" result entry is an array of NaN,
one per input sequence — direct predictions are never computed for PFM
models (line 418). -/
theorem pfm_direct_is_nan (rc : Bool) (p : WorkerParams)
    (m : List (List ℚ)) (hm : p.model = Model.pfm m)
    (hn : p.data.nseqattrs ≤ 1) :
    ∃ rest, worker_job rc p
      = Except.ok ((p.modelid ++ ".direct",
          ResultVal.direct (List.replicate p.data.seqs.length NpVal.nan))
            :: rest) := by
  rcases p with ⟨id, mo, sc, str, data, wp, wg⟩
  have hm2 : mo = Model.pfm m := hm
  subst hm2
  have h1 : ¬ 1 < data.nseqattrs := by
    have : data.nseqattrs ≤ 1 := hn
    omega
  refine ⟨?_, ?_⟩
  · exact [(id ++ ".max", ResultVal.scalars
        ((gen_pfm_predictionmaps rc m data.seqs).map npMax)),
      (id ++ ".avg", ResultVal.scalars
        ((gen_pfm_predictionmaps rc m data.seqs).map npMean)),
      (id ++ ".sum", ResultVal.scalars
        ((gen_pfm_predictionmaps rc m data.seqs).map npSum))]
      ++ (if wp then [(id ++ ".pmaps",
            ResultVal.pmapsV (gen_pfm_predictionmaps rc m data.seqs))] else [])
      ++ (match (if wg then some ([] : List GMapEntry) else none) with
          | some g => [(id ++ ".gmaps", ResultVal.gmapsV g)]
          | none => [])
  · simp [worker_job, h1, scanResults]

/-- Witness for `pfm_direct_is_nan` on the concrete 1-sequence PFM job. -/
theorem pfm_direct_is_nan_witness :
    ∃ rest, worker_job false pDirectSample
      = Except.ok ((pDirectSample.modelid ++ ".direct",
          ResultVal.direct
            (List.replicate pDirectSample.data.seqs.length NpVal.nan))
            :: rest) :=
  pfm_direct_is_nan false pDirectSample [[1, 0, 0, 0]] rfl (by decide)

/-- Counterexample to claim C6 as stated: requesting gradient maps on a
PFM model does not signal any error — the NotImplementedError is
commented out (predict.py lines 416-417) and the job returns a success
mapping whose "<id>.gmaps" entry is the empty list. -/
theorem pfm_gmaps_request_cex :
    worker_job false pGmSample
      = Except.ok (scanResults "M" [NpVal.nan]
          (gen_pfm_predictionmaps false [[1, 0, 0, 0]] [[0]])
          (some []) false) := by
  rfl

/-- Claim C6 (amended): a request for attribution maps on a PFM model
does NOT raise — the worker returns a normal success mapping whose
final "<model_id>.gmaps" entry is the empty list (the error raise is
commented out in the source). -/
theorem pfm_gmaps_no_error (rc : Bool) (p : WorkerParams)
    (m : List (List ℚ)) (hm : p.model = Model.pfm m)
    (hn : p.data.nseqattrs ≤ 1) (hg : p.want_gmaps = true) :
    ∃ rest, worker_job rc p
      = Except.ok (rest ++ [(p.modelid ++ ".gmaps", ResultVal.gmapsV [])]) := by
  rcases p with ⟨id, mo, sc, str, data, wp, wg⟩
  have hm2 : mo = Model.pfm m := hm
  subst hm2
  have hg2 : wg = true := hg
  subst hg2
  have h1 : ¬ 1 < data.nseqattrs := by
    have : data.nseqattrs ≤ 1 := hn
    omega
  refine ⟨[(id ++ ".direct", ResultVal.direct
        (List.replicate data.seqs.length NpVal.nan)),
      (id ++ ".max", ResultVal.scalars
        ((gen_pfm_predictionmaps rc m data.seqs).map npMax)),
      (id ++ ".avg", ResultVal.scalars
        ((gen_pfm_predictionmaps rc m data.seqs).map npMean)),
      (id ++ ".sum", ResultVal.scalars
        ((gen_pfm_predictionmaps rc m data.seqs).map npSum))]
      ++ (if wp then [(id ++ ".pmaps",
            ResultVal.pmapsV (gen_pfm_predictionmaps rc m data.seqs))] else []),
      ?_⟩
  simp [worker_job, h1, scanResults, List.append_assoc]

/-- Witness for `pfm_gmaps_no_error` at the concrete PFM job with
gradient maps requested. -/
theorem pfm_gmaps_no_error_witness :
    ∃ rest, worker_job false pGmSample
      = Except.ok (rest ++ [(pGmSample.modelid ++ ".gmaps",
          ResultVal.gmapsV [])]) :=
  pfm_gmaps_no_error false pGmSample [[1, 0, 0, 0]] rfl (by decide) rfl

end DeepBind
